import Mathlib

set_option linter.unusedVariables false

/-!
Verification of the pulp_rpm repository-management core: the sync / publish / copy
dispatch triggers (src/pulp_rpm/app/viewsets/repository.py), the modulemd content
serializers (src/pulp_rpm/app/serializers/modulemd.py), and the checkpoint
time-resolution read path.  Components whose implementation lives outside the
provided sources (the checkpoint resolver and the task store) are modelled from
the specification and marked as such in their doc comments.
-/

namespace PulpRpm

/-! ### Sync policies and repository state (src/pulp_rpm/app/viewsets/repository.py) -/

inductive SyncPolicy
  | additive
  | mirror_complete
  | mirror_content_only
deriving DecidableEq

structure RepositoryVersionRec where
  pk : Nat
  number : Nat
deriving DecidableEq

structure RpmRepository where
  pk : Nat
  name : String
  remote : Nat
  retain_package_versions : Nat
  autopublish : Bool
  checksum_type : String
  repo_config : String
  compression_type : String
  metadata_signing_service : Option Nat
  versions : List RepositoryVersionRec
deriving DecidableEq

inductive Resource
  | remote (pk : Nat)
  | repository (pk : Nat)
deriving DecidableEq

/-! ### Sync trigger: RpmRepositoryViewSet.sync -/

structure SyncRequest where
  remote : Option Nat
  mirror : Option Bool
  sync_policy : Option SyncPolicy
  skip_types : Option (List String)
  optimize : Option Bool
deriving DecidableEq

structure SyncKwargs where
  sync_policy : SyncPolicy
  remote_pk : Nat
  repository_pk : Nat
  skip_types : Option (List String)
  optimize : Option Bool
deriving DecidableEq

structure SyncDispatch where
  shared_resources : List Resource
  exclusive_resources : List Resource
  kwargs : SyncKwargs
deriving DecidableEq

/-- The default-policy selection of RpmRepositoryViewSet.sync: an explicitly
supplied policy wins; otherwise mirror_complete when the mirror flag is true,
additive when it is false or absent. -/
def effectiveSyncPolicy (req : SyncRequest) : SyncPolicy :=
  match req.sync_policy with
  | some p => p
  | none =>
    if req.mirror = some true then SyncPolicy.mirror_complete else SyncPolicy.additive

def mirrorBothErrMsg (field : String) : String :=
  "Cannot use \x27" ++ field ++
    "\x27 in combination with a \x27mirror_complete\x27 or \x27mirror_content_only\x27 sync policy."

def mirrorCompleteErrMsg (field : String) : String :=
  "Cannot use \x27" ++ field ++ "\x27 in combination with a \x27mirror_complete\x27 sync policy."

/-- RpmRepositoryViewSet.sync: validates policy combinations against
repository-wide settings and, on success, dispatches the synchronize task with
the remote as a shared resource and the repository as an exclusive resource.
An Except.error result models a DRF ValidationError raised before the dispatch
call, i.e. before any task is created or any lock is requested. -/
def RpmRepositoryViewSet_sync (repository : RpmRepository) (req : SyncRequest) :
    Except String SyncDispatch :=
  if (effectiveSyncPolicy req = SyncPolicy.mirror_complete ∨
        effectiveSyncPolicy req = SyncPolicy.mirror_content_only)
      ∧ 0 < repository.retain_package_versions then
    Except.error (mirrorBothErrMsg "retain_package_versions")
  else if effectiveSyncPolicy req = SyncPolicy.mirror_complete ∧
      repository.autopublish = true then
    Except.error (mirrorCompleteErrMsg "autopublish")
  else if effectiveSyncPolicy req = SyncPolicy.mirror_complete ∧
      req.skip_types.getD [] ≠ [] then
    Except.error (mirrorCompleteErrMsg "skip_types")
  else
    Except.ok
      { shared_resources := [Resource.remote (req.remote.getD repository.remote)]
        exclusive_resources := [Resource.repository repository.pk]
        kwargs :=
          { sync_policy := effectiveSyncPolicy req
            remote_pk := req.remote.getD repository.remote
            repository_pk := repository.pk
            skip_types := req.skip_types
            optimize := req.optimize } }

/-! ### Publish trigger: RpmPublicationViewSet.create -/

structure PublishRequest where
  repository_version : Nat
  checkpoint : Option Bool
  checksum_type : Option String
  repo_config : Option String
  compression_type : Option String
deriving DecidableEq

structure PublishKwargs where
  repository_version_pk : Nat
  metadata_signing_service : Option Nat
  checksum_type : String
  repo_config : String
  compression_type : String
  checkpoint : Option Bool
deriving DecidableEq

structure PublishDispatch where
  shared_resources : List Resource
  exclusive_resources : List Resource
  kwargs : PublishKwargs
deriving DecidableEq

/-- RpmPublicationViewSet.create: resolves effective checksum type, repo config
and compression type by falling back from request-supplied values to the
repository's stored settings, includes the checkpoint kwarg only when the flag
was supplied true, and dispatches the publish task with the repository of the
requested version as a shared resource (and no exclusive resources). -/
def RpmPublicationViewSet_create (repository : RpmRepository) (req : PublishRequest) :
    PublishDispatch :=
  let checkpoint := req.checkpoint
  let checksum_type := req.checksum_type.getD repository.checksum_type
  let repo_config := req.repo_config.getD repository.repo_config
  let compression_type := req.compression_type.getD repository.compression_type
  let signing_service_pk := repository.metadata_signing_service
  { shared_resources := [Resource.repository repository.pk]
    exclusive_resources := []
    kwargs :=
      { repository_version_pk := req.repository_version
        metadata_signing_service := signing_service_pk
        checksum_type := checksum_type
        repo_config := repo_config
        compression_type := compression_type
        checkpoint := if checkpoint = some true then some true else none } }

/-! ### Claim theorems: C2, C8, C5 -/

/-- C2: a sync dispatch request is rejected with a validation error (before any
task is created or lock requested, modelled here by the Except.error result)
whenever the effective policy is mirror_complete or mirror_content_only while
retain_package_versions is positive, or the effective policy is mirror_complete
while autopublish is enabled or a non-empty skip_types list is supplied. -/
theorem sync_invalid_policy_combination_rejected
    (repository : RpmRepository) (req : SyncRequest)
    (h :
      ((effectiveSyncPolicy req = SyncPolicy.mirror_complete ∨
          effectiveSyncPolicy req = SyncPolicy.mirror_content_only) ∧
        0 < repository.retain_package_versions) ∨
      (effectiveSyncPolicy req = SyncPolicy.mirror_complete ∧
        (repository.autopublish = true ∨ req.skip_types.getD [] ≠ []))) :
    ∃ msg, RpmRepositoryViewSet_sync repository req = Except.error msg := by
  unfold RpmRepositoryViewSet_sync
  split_ifs with h1 h2 h3
  · exact ⟨_, rfl⟩
  · exact ⟨_, rfl⟩
  · exact ⟨_, rfl⟩
  · exact absurd h (by tauto)

def syncRepoEx : RpmRepository :=
  { pk := 1, name := "zoo", remote := 7, retain_package_versions := 2, autopublish := false
    checksum_type := "sha256", repo_config := "", compression_type := "gz"
    metadata_signing_service := none, versions := [] }

def syncReqEx : SyncRequest :=
  { remote := none, mirror := none, sync_policy := some SyncPolicy.mirror_complete
    skip_types := none, optimize := none }

theorem sync_invalid_policy_combination_rejected_witness :
    (effectiveSyncPolicy syncReqEx = SyncPolicy.mirror_complete ∧
      0 < syncRepoEx.retain_package_versions) ∧
    ∃ msg, RpmRepositoryViewSet_sync syncRepoEx syncReqEx = Except.error msg :=
  ⟨⟨rfl, by decide⟩,
    sync_invalid_policy_combination_rejected syncRepoEx syncReqEx
      (Or.inl ⟨Or.inl rfl, by decide⟩)⟩

/-- C8: when the caller supplies no explicit sync policy, the effective policy
is mirror_complete exactly when the mirror flag was supplied true and additive
otherwise (including when the flag is absent), and the sync trigger behaves
identically to one invoked with that effective policy made explicit, so all
subsequent validation is performed against it. -/
theorem sync_default_policy_selection
    (repository : RpmRepository) (req : SyncRequest) (hnone : req.sync_policy = none) :
    (req.mirror = some true → effectiveSyncPolicy req = SyncPolicy.mirror_complete) ∧
    (req.mirror ≠ some true → effectiveSyncPolicy req = SyncPolicy.additive) ∧
    RpmRepositoryViewSet_sync repository req =
      RpmRepositoryViewSet_sync repository
        { req with sync_policy := some (effectiveSyncPolicy req) } := by
  refine ⟨?_, ?_, ?_⟩
  · intro hm
    simp [effectiveSyncPolicy, hnone, hm]
  · intro hm
    simp [effectiveSyncPolicy, hnone, hm]
  · have heff : effectiveSyncPolicy { req with sync_policy := some (effectiveSyncPolicy req) } =
        effectiveSyncPolicy req := rfl
    unfold RpmRepositoryViewSet_sync
    rw [heff]

def syncReqDefaultEx : SyncRequest :=
  { remote := some 9, mirror := some true, sync_policy := none
    skip_types := none, optimize := some true }

theorem sync_default_policy_selection_witness :
    syncReqDefaultEx.sync_policy = none ∧
    effectiveSyncPolicy syncReqDefaultEx = SyncPolicy.mirror_complete ∧
    RpmRepositoryViewSet_sync syncRepoEx syncReqDefaultEx =
      RpmRepositoryViewSet_sync syncRepoEx
        { syncReqDefaultEx with sync_policy := some (effectiveSyncPolicy syncReqDefaultEx) } :=
  ⟨rfl,
    (sync_default_policy_selection syncRepoEx syncReqDefaultEx rfl).1 rfl,
    (sync_default_policy_selection syncRepoEx syncReqDefaultEx rfl).2.2⟩

/-- C5: the publish trigger passes to the dispatched task exactly the
request-supplied checksum type, repo config and compression type when they are
supplied, falls back to the repository's stored defaults when they are not, and
propagates the checkpoint flag (the task receives checkpoint = true exactly
when the request supplied it true). -/
theorem publish_create_effective_fields (repository : RpmRepository) (req : PublishRequest) :
    (∀ c, req.checksum_type = some c →
        (RpmPublicationViewSet_create repository req).kwargs.checksum_type = c) ∧
    (req.checksum_type = none →
        (RpmPublicationViewSet_create repository req).kwargs.checksum_type =
          repository.checksum_type) ∧
    (∀ c, req.repo_config = some c →
        (RpmPublicationViewSet_create repository req).kwargs.repo_config = c) ∧
    (req.repo_config = none →
        (RpmPublicationViewSet_create repository req).kwargs.repo_config =
          repository.repo_config) ∧
    (∀ c, req.compression_type = some c →
        (RpmPublicationViewSet_create repository req).kwargs.compression_type = c) ∧
    (req.compression_type = none →
        (RpmPublicationViewSet_create repository req).kwargs.compression_type =
          repository.compression_type) ∧
    ((RpmPublicationViewSet_create repository req).kwargs.checkpoint = some true ↔
      req.checkpoint = some true) := by
  refine ⟨?_, ?_, ?_, ?_, ?_, ?_, ?_⟩
  · intro c hc; simp [RpmPublicationViewSet_create, hc]
  · intro hc; simp [RpmPublicationViewSet_create, hc]
  · intro c hc; simp [RpmPublicationViewSet_create, hc]
  · intro hc; simp [RpmPublicationViewSet_create, hc]
  · intro c hc; simp [RpmPublicationViewSet_create, hc]
  · intro hc; simp [RpmPublicationViewSet_create, hc]
  · constructor
    · intro h
      by_cases hc : req.checkpoint = some true
      · exact hc
      · simp [RpmPublicationViewSet_create, hc] at h
    · intro h; simp [RpmPublicationViewSet_create, h]

def pubReqEx : PublishRequest :=
  { repository_version := 5, checkpoint := some true, checksum_type := some "sha512"
    repo_config := none, compression_type := none }

theorem publish_create_effective_fields_witness :
    pubReqEx.checksum_type = some "sha512" ∧
    (RpmPublicationViewSet_create syncRepoEx pubReqEx).kwargs.checksum_type = "sha512" ∧
    (RpmPublicationViewSet_create syncRepoEx pubReqEx).kwargs.repo_config =
      syncRepoEx.repo_config ∧
    ((RpmPublicationViewSet_create syncRepoEx pubReqEx).kwargs.checkpoint = some true ↔
      pubReqEx.checkpoint = some true) :=
  ⟨rfl,
    (publish_create_effective_fields syncRepoEx pubReqEx).1 "sha512" rfl,
    (publish_create_effective_fields syncRepoEx pubReqEx).2.2.2.1 rfl,
    (publish_create_effective_fields syncRepoEx pubReqEx).2.2.2.2.2.2⟩

/-! ### Copy trigger: CopyViewSet.create and CopyViewSet._process_config -/

structure SourceRepoVersion where
  pk : Nat
  repository : RpmRepository
deriving DecidableEq

structure CopyEntryIn where
  source_repo_version : String
  dest_repo : String
  dest_base_version : Option Nat
  content : Option (List String)
deriving DecidableEq

structure CopyEntryOut where
  source_repo_version : Nat
  dest_repo : Nat
  dest_base_version : Option Nat
  content : Option (List Nat)
deriving DecidableEq

inductive CopyError
  | not_found (href : String)
  | validation (msg : String)
deriving DecidableEq

/-- The external resolution of hrefs performed by NamedModelViewSet.get_resource
and extract_pk (both provided by pulpcore, outside this corpus). -/
structure CopyEnv where
  getRepositoryVersion : String → Option SourceRepoVersion
  getRpmRepository : String → Option RpmRepository
  extractPk : String → Nat

def versionDoesNotExistMsg (version : Nat) (repo : String) : String :=
  "Version " ++ toString version ++ " does not exist for repository \x27" ++ repo ++ "\x27."

/-- CopyViewSet._process_config: resolves every entry's hrefs to pks,
accumulating each source version's repository into the shared-lock list and
each destination repository into the exclusive-lock list; a dest_base_version
that does not exist on the destination repository raises a DRF ValidationError
naming the version number and the repository. -/
def processConfig (env : CopyEnv) :
    List CopyEntryIn → Except CopyError (List CopyEntryOut × List RpmRepository × List RpmRepository)
  | [] => Except.ok ([], [], [])
  | entry :: rest =>
    match env.getRepositoryVersion entry.source_repo_version with
    | none => Except.error (CopyError.not_found entry.source_repo_version)
    | some source_version =>
      match env.getRpmRepository entry.dest_repo with
      | none => Except.error (CopyError.not_found entry.dest_repo)
      | some dest_repo =>
        match entry.dest_base_version with
        | some v =>
          match dest_repo.versions.find? (fun rv => rv.number = v) with
          | none =>
            Except.error (CopyError.validation (versionDoesNotExistMsg v dest_repo.name))
          | some rv =>
            match processConfig env rest with
            | Except.error e => Except.error e
            | Except.ok (outs, shared_repos, exclusive_repos) =>
              Except.ok
                ({ source_repo_version := source_version.pk
                   dest_repo := dest_repo.pk
                   dest_base_version := some rv.pk
                   content := entry.content.map (fun cs => cs.map env.extractPk) } :: outs,
                 source_version.repository :: shared_repos,
                 dest_repo :: exclusive_repos)
        | none =>
          match processConfig env rest with
          | Except.error e => Except.error e
          | Except.ok (outs, shared_repos, exclusive_repos) =>
            Except.ok
              ({ source_repo_version := source_version.pk
                 dest_repo := dest_repo.pk
                 dest_base_version := none
                 content := entry.content.map (fun cs => cs.map env.extractPk) } :: outs,
               source_version.repository :: shared_repos,
               dest_repo :: exclusive_repos)

structure CopyDispatch where
  shared_resources : List Resource
  exclusive_resources : List Resource
  config : List CopyEntryOut
  dependency_solving : Bool
deriving DecidableEq

/-- CopyViewSet.create: validates and translates the copy config, then
dispatches the copy_content task with the source repositories as shared
resources and the destination repositories as exclusive resources.  An
Except.error result models the exception propagating before the dispatch
call, i.e. no task is created. -/
def CopyViewSet_create (env : CopyEnv) (dependency_solving : Bool)
    (config : List CopyEntryIn) : Except CopyError CopyDispatch :=
  match processConfig env config with
  | Except.error e => Except.error e
  | Except.ok (cfg, shared_repos, exclusive_repos) =>
    Except.ok
      { shared_resources := shared_repos.map (fun r => Resource.repository r.pk)
        exclusive_resources := exclusive_repos.map (fun r => Resource.repository r.pk)
        config := cfg
        dependency_solving := dependency_solving }

/-- An entry whose dest_base_version is requested but absent from the
destination repository resolved for it. -/
def offendingEntry (env : CopyEnv) (e : CopyEntryIn) (v : Nat) (dest_repo : RpmRepository) :
    Prop :=
  e.dest_base_version = some v ∧
    env.getRpmRepository e.dest_repo = some dest_repo ∧
    dest_repo.versions.find? (fun rv => rv.number = v) = none

theorem processConfig_missing_base_version (env : CopyEnv) (config : List CopyEntryIn)
    (hresolve : ∀ e ∈ config, (env.getRepositoryVersion e.source_repo_version).isSome ∧
      (env.getRpmRepository e.dest_repo).isSome)
    (hbad : ∃ e ∈ config, ∃ v dest_repo, offendingEntry env e v dest_repo) :
    ∃ v dest_repo,
      (∃ e ∈ config, offendingEntry env e v dest_repo) ∧
      processConfig env config =
        Except.error (CopyError.validation (versionDoesNotExistMsg v dest_repo.name)) := by
  induction config with
  | nil => obtain ⟨e, he, _⟩ := hbad; exact absurd he (List.not_mem_nil e)
  | cons entry rest ih =>
    obtain ⟨hsv1, hdr1⟩ := hresolve entry (List.mem_cons_self entry rest)
    obtain ⟨source_version, hsv⟩ := Option.isSome_iff_exists.mp hsv1
    obtain ⟨dest_repo, hdr⟩ := Option.isSome_iff_exists.mp hdr1
    by_cases hoff : ∃ v, offendingEntry env entry v dest_repo
    · obtain ⟨v, hbase, -, hfind⟩ := hoff
      refine ⟨v, dest_repo, ⟨entry, List.mem_cons_self entry rest, hbase, hdr, hfind⟩, ?_⟩
      simp [processConfig, hsv, hdr, hbase, hfind]
    · have hbadrest : ∃ e ∈ rest, ∃ v dest_repo, offendingEntry env e v dest_repo := by
        obtain ⟨e, he, v, r, hoffe⟩ := hbad
        rcases List.mem_cons.mp he with heq | he
        · subst heq
          have hr : r = dest_repo := by
            have h2 := hoffe.2.1
            rw [hdr] at h2
            exact (Option.some.injEq _ _).mp h2.symm
          exact absurd ⟨v, hoffe.1, hdr, hr ▸ hoffe.2.2⟩ hoff
        · exact ⟨e, he, v, r, hoffe⟩
      obtain ⟨v, r, ⟨e, he, hoffe⟩, herr⟩ :=
        ih (fun e he => hresolve e (List.mem_cons_of_mem entry he)) hbadrest
      refine ⟨v, r, ⟨e, List.mem_cons_of_mem entry he, hoffe⟩, ?_⟩
      match hbase : entry.dest_base_version with
      | none => simp [processConfig, hsv, hdr, hbase, herr]
      | some w =>
        match hfind : dest_repo.versions.find? (fun rv => rv.number = w) with
        | none => exact absurd ⟨w, hbase, hdr, hfind⟩ hoff
        | some rv => simp [processConfig, hsv, hdr, hbase, hfind, herr]

/-- C6: a copy request in which every href resolves but some entry requests a
dest_base_version absent from its destination repository is rejected with a
validation error whose message names that version number and that destination
repository, and no task is dispatched (the create call returns an error
instead of a dispatch record). -/
theorem copy_missing_dest_base_version_rejected
    (env : CopyEnv) (dependency_solving : Bool) (config : List CopyEntryIn)
    (hresolve : ∀ e ∈ config, (env.getRepositoryVersion e.source_repo_version).isSome ∧
      (env.getRpmRepository e.dest_repo).isSome)
    (hbad : ∃ e ∈ config, ∃ v dest_repo, offendingEntry env e v dest_repo) :
    ∃ v dest_repo,
      (∃ e ∈ config, offendingEntry env e v dest_repo) ∧
      CopyViewSet_create env dependency_solving config =
        Except.error (CopyError.validation (versionDoesNotExistMsg v dest_repo.name)) := by
  obtain ⟨v, r, hw, herr⟩ := processConfig_missing_base_version env config hresolve hbad
  refine ⟨v, r, hw, ?_⟩
  unfold CopyViewSet_create
  rw [herr]

def copySrcRepoEx : RpmRepository :=
  { pk := 21, name := "src-repo", remote := 0, retain_package_versions := 0
    autopublish := false, checksum_type := "sha256", repo_config := ""
    compression_type := "gz", metadata_signing_service := none
    versions := [{ pk := 210, number := 0 }] }

def copyDestRepoEx : RpmRepository :=
  { pk := 22, name := "dest-repo", remote := 0, retain_package_versions := 0
    autopublish := false, checksum_type := "sha256", repo_config := ""
    compression_type := "gz", metadata_signing_service := none
    versions := [{ pk := 220, number := 0 }, { pk := 221, number := 1 }] }

def copyEnvEx : CopyEnv :=
  { getRepositoryVersion := fun h =>
      if h = "/v3/src/versions/0/" then some { pk := 210, repository := copySrcRepoEx } else none
    getRpmRepository := fun h => if h = "/v3/dest/" then some copyDestRepoEx else none
    extractPk := fun _ => 0 }

def copyEntryEx : CopyEntryIn :=
  { source_repo_version := "/v3/src/versions/0/", dest_repo := "/v3/dest/"
    dest_base_version := some 7, content := none }

theorem copy_missing_dest_base_version_rejected_witness :
    offendingEntry copyEnvEx copyEntryEx 7 copyDestRepoEx ∧
    ∃ v dest_repo,
      (∃ e ∈ [copyEntryEx], offendingEntry copyEnvEx e v dest_repo) ∧
      CopyViewSet_create copyEnvEx true [copyEntryEx] =
        Except.error (CopyError.validation (versionDoesNotExistMsg v dest_repo.name)) :=
  ⟨⟨rfl, by simp [copyEnvEx, copyEntryEx], by simp [copyEnvEx, copyDestRepoEx]⟩,
    copy_missing_dest_base_version_rejected copyEnvEx true [copyEntryEx]
      (by
        intro e he
        simp only [List.mem_singleton] at he
        subst he
        exact ⟨by simp [copyEnvEx, copyEntryEx], by simp [copyEnvEx, copyEntryEx]⟩)
      ⟨copyEntryEx, List.mem_singleton.mpr rfl, 7, copyDestRepoEx,
        rfl, by simp [copyEnvEx, copyEntryEx], by simp [copyEnvEx, copyDestRepoEx]⟩⟩

/-! ### C3: resource reservations of the three dispatch triggers -/

/-- C3 counterexample: at a concrete publish request the dispatched publish
task reserves the target repository as a shared resource and reserves nothing
exclusively, refuting the claim that each of the sync, publish and copy
triggers declares the repository it works on as an exclusive reservation. -/
theorem publish_repository_reserved_shared_not_exclusive :
    (RpmPublicationViewSet_create syncRepoEx pubReqEx).exclusive_resources = [] ∧
    Resource.repository syncRepoEx.pk ∈
      (RpmPublicationViewSet_create syncRepoEx pubReqEx).shared_resources := by
  exact ⟨rfl, by simp [RpmPublicationViewSet_create]⟩

theorem processConfig_lock_lists (env : CopyEnv) (config : List CopyEntryIn)
    (outs : List CopyEntryOut) (shared_repos exclusive_repos : List RpmRepository)
    (h : processConfig env config = Except.ok (outs, shared_repos, exclusive_repos)) :
    List.Forall₂ (fun (e : CopyEntryIn) (r : RpmRepository) =>
      ∃ sv, env.getRepositoryVersion e.source_repo_version = some sv ∧ sv.repository = r)
      config shared_repos ∧
    List.Forall₂ (fun (e : CopyEntryIn) (r : RpmRepository) =>
      env.getRpmRepository e.dest_repo = some r) config exclusive_repos := by
  induction config generalizing outs shared_repos exclusive_repos with
  | nil =>
    unfold processConfig at h
    simp only [Except.ok.injEq, Prod.mk.injEq] at h
    obtain ⟨-, h2, h3⟩ := h
    subst h2; subst h3
    exact ⟨List.Forall₂.nil, List.Forall₂.nil⟩
  | cons entry rest ih =>
    match hsv : env.getRepositoryVersion entry.source_repo_version with
    | none => simp [processConfig, hsv] at h
    | some source_version =>
      match hdr : env.getRpmRepository entry.dest_repo with
      | none => simp [processConfig, hsv, hdr] at h
      | some dest_repo =>
        match hbase : entry.dest_base_version with
        | some v =>
          match hfind : dest_repo.versions.find? (fun rv => rv.number = v) with
          | none => simp [processConfig, hsv, hdr, hbase, hfind] at h
          | some rv =>
            match hrest : processConfig env rest with
            | Except.error e => simp [processConfig, hsv, hdr, hbase, hfind, hrest] at h
            | Except.ok (outs1, sh1, ex1) =>
              simp only [processConfig, hsv, hdr, hbase, hfind, hrest,
                Except.ok.injEq, Prod.mk.injEq] at h
              obtain ⟨-, h2, h3⟩ := h
              subst h2; subst h3
              obtain ⟨ihs, ihe⟩ := ih outs1 sh1 ex1 hrest
              exact ⟨List.Forall₂.cons ⟨source_version, hsv, rfl⟩ ihs,
                List.Forall₂.cons hdr ihe⟩
        | none =>
          match hrest : processConfig env rest with
          | Except.error e => simp [processConfig, hsv, hdr, hbase, hrest] at h
          | Except.ok (outs1, sh1, ex1) =>
            simp only [processConfig, hsv, hdr, hbase, hrest,
              Except.ok.injEq, Prod.mk.injEq] at h
            obtain ⟨-, h2, h3⟩ := h
            subst h2; subst h3
            obtain ⟨ihs, ihe⟩ := ih outs1 sh1 ex1 hrest
            exact ⟨List.Forall₂.cons ⟨source_version, hsv, rfl⟩ ihs,
              List.Forall₂.cons hdr ihe⟩

/-- C3 amended: the sync trigger reserves the remote as shared and the target
repository as exclusive; the copy trigger reserves the source repositories as
shared and the destination repositories as exclusive; the publish trigger,
however, reserves the repository of the published version as a shared
resource and nothing exclusively (a publication does not create a repository
version). -/
theorem dispatch_resource_reservations :
    (∀ (repository : RpmRepository) (req : SyncRequest) (call : SyncDispatch),
        RpmRepositoryViewSet_sync repository req = Except.ok call →
        call.shared_resources = [Resource.remote (req.remote.getD repository.remote)] ∧
        call.exclusive_resources = [Resource.repository repository.pk]) ∧
    (∀ (repository : RpmRepository) (req : PublishRequest),
        (RpmPublicationViewSet_create repository req).shared_resources =
          [Resource.repository repository.pk] ∧
        (RpmPublicationViewSet_create repository req).exclusive_resources = []) ∧
    (∀ (env : CopyEnv) (ds : Bool) (config : List CopyEntryIn) (call : CopyDispatch),
        CopyViewSet_create env ds config = Except.ok call →
        ∃ outs shared_repos exclusive_repos,
          processConfig env config = Except.ok (outs, shared_repos, exclusive_repos) ∧
          call.shared_resources = shared_repos.map (fun r => Resource.repository r.pk) ∧
          call.exclusive_resources = exclusive_repos.map (fun r => Resource.repository r.pk) ∧
          List.Forall₂ (fun (e : CopyEntryIn) (r : RpmRepository) =>
            ∃ sv, env.getRepositoryVersion e.source_repo_version = some sv ∧
              sv.repository = r) config shared_repos ∧
          List.Forall₂ (fun (e : CopyEntryIn) (r : RpmRepository) =>
            env.getRpmRepository e.dest_repo = some r) config exclusive_repos) := by
  refine ⟨?_, ?_, ?_⟩
  · intro repository req call h
    unfold RpmRepositoryViewSet_sync at h
    split_ifs at h
    all_goals injection h with h
    subst h
    exact ⟨rfl, rfl⟩
  · intro repository req
    exact ⟨rfl, rfl⟩
  · intro env ds config call h
    match hpc : processConfig env config with
    | Except.error e => simp [CopyViewSet_create, hpc] at h
    | Except.ok (outs, shared_repos, exclusive_repos) =>
      rw [CopyViewSet_create, hpc] at h
      injection h with h
      subst h
      obtain ⟨hs, he⟩ := processConfig_lock_lists env config outs shared_repos exclusive_repos hpc
      exact ⟨outs, shared_repos, exclusive_repos, rfl, rfl, rfl, hs, he⟩

def syncReqOkEx : SyncRequest :=
  { remote := some 9, mirror := none, sync_policy := some SyncPolicy.additive
    skip_types := none, optimize := none }

theorem dispatch_resource_reservations_witness :
    (∃ call, RpmRepositoryViewSet_sync syncRepoEx syncReqOkEx = Except.ok call ∧
      call.shared_resources = [Resource.remote 9] ∧
      call.exclusive_resources = [Resource.repository syncRepoEx.pk]) ∧
    (RpmPublicationViewSet_create syncRepoEx pubReqEx).shared_resources =
      [Resource.repository syncRepoEx.pk] ∧
    (RpmPublicationViewSet_create syncRepoEx pubReqEx).exclusive_resources = [] := by
  refine ⟨?_, dispatch_resource_reservations.2.1 syncRepoEx pubReqEx⟩
  have hok : RpmRepositoryViewSet_sync syncRepoEx syncReqOkEx =
      Except.ok
        { shared_resources := [Resource.remote 9]
          exclusive_resources := [Resource.repository syncRepoEx.pk]
          kwargs :=
            { sync_policy := SyncPolicy.additive, remote_pk := 9
              repository_pk := syncRepoEx.pk, skip_types := none, optimize := none } } := by
    rfl
  obtain ⟨hsh, hex⟩ := dispatch_resource_reservations.1 syncRepoEx syncReqOkEx _ hok
  exact ⟨_, hok, hsh.trans rfl, hex⟩

/-! ### Modulemd serializers (src/pulp_rpm/app/serializers/modulemd.py)

The serializers compute the unit digest as sha256 of the snippet text alone;
the hash itself is an external primitive (hashlib), passed here as an
argument. -/

structure ModulemdValidatedData where
  name : String
  stream : String
  version : String
  static_context : Option Bool
  context : String
  arch : String
  artifacts : String
  dependencies : String
  packages : List Nat
  profiles : String
  description : String
  snippet : String
deriving DecidableEq

structure ModulemdUnit where
  name : String
  stream : String
  version : String
  static_context : Option Bool
  context : String
  arch : String
  artifacts : String
  dependencies : String
  packages : List Nat
  profiles : String
  description : String
  snippet : String
  digest : String
deriving DecidableEq

/-- ModulemdSerializer.create: sets digest to sha256(snippet) and stores the
unit, attaching the m2m packages after the main object is created. -/
def ModulemdSerializer_create (sha256_hexdigest : String → String)
    (validated_data : ModulemdValidatedData) : ModulemdUnit :=
  { name := validated_data.name
    stream := validated_data.stream
    version := validated_data.version
    static_context := validated_data.static_context
    context := validated_data.context
    arch := validated_data.arch
    artifacts := validated_data.artifacts
    dependencies := validated_data.dependencies
    packages := validated_data.packages
    profiles := validated_data.profiles
    description := validated_data.description
    snippet := validated_data.snippet
    digest := sha256_hexdigest validated_data.snippet }

structure ModulemdDefaultsValidatedData where
  module : String
  stream : String
  profiles : String
  snippet : String
deriving DecidableEq

structure ModulemdDefaultsUnit where
  module : String
  stream : String
  profiles : String
  snippet : String
  digest : String
deriving DecidableEq

/-- ModulemdDefaultsSerializer.create: sets digest to sha256(snippet) and
stores the unit. -/
def ModulemdDefaultsSerializer_create (sha256_hexdigest : String → String)
    (validated_data : ModulemdDefaultsValidatedData) : ModulemdDefaultsUnit :=
  { module := validated_data.module
    stream := validated_data.stream
    profiles := validated_data.profiles
    snippet := validated_data.snippet
    digest := sha256_hexdigest validated_data.snippet }

def duplicateKeyMsg (constraint : String) : String :=
  "duplicate key value violates unique constraint \x22" ++ constraint ++ "\x22"

inductive TaskFinalState
  | completed (digests : List String)
  | failed (description : String)
deriving DecidableEq

/-- Modelled from the spec: the underlying store (the relational database,
outside this corpus) enforces a uniqueness constraint on the unit digest;
creating a unit whose digest already exists raises ConflictError, which the
content-creation task surfaces as a terminal failure whose description names
the violated constraint, without retrying; otherwise the task completes and
the digest becomes stored. -/
def runCreateUnitTask (constraint : String) (existing : List String) (digest : String) :
    TaskFinalState :=
  if digest ∈ existing then TaskFinalState.failed (duplicateKeyMsg constraint)
  else TaskFinalState.completed (digest :: existing)

/-- C9: a content-creation task for a modulemd or modulemd-defaults unit whose
digest duplicates an already-stored digest terminates as failed, with a
description containing the name of the violated uniqueness constraint, and
never reports completion (the failure is the terminal state; nothing is
retried). -/
theorem duplicate_identity_task_fails
    (sha256_hexdigest : String → String) (constraint : String) (existing : List String)
    (vd : ModulemdDefaultsValidatedData) (md : ModulemdValidatedData)
    (hdupd : (ModulemdDefaultsSerializer_create sha256_hexdigest vd).digest ∈ existing)
    (hdupm : (ModulemdSerializer_create sha256_hexdigest md).digest ∈ existing) :
    (runCreateUnitTask constraint existing
        (ModulemdDefaultsSerializer_create sha256_hexdigest vd).digest =
      TaskFinalState.failed (duplicateKeyMsg constraint)) ∧
    (runCreateUnitTask constraint existing
        (ModulemdSerializer_create sha256_hexdigest md).digest =
      TaskFinalState.failed (duplicateKeyMsg constraint)) ∧
    (∃ s t, duplicateKeyMsg constraint = s ++ constraint ++ t) ∧
    (∀ digests, runCreateUnitTask constraint existing
        (ModulemdDefaultsSerializer_create sha256_hexdigest vd).digest ≠
      TaskFinalState.completed digests) := by
  refine ⟨?_, ?_, ?_, ?_⟩
  · simp [runCreateUnitTask, hdupd]
  · simp [runCreateUnitTask, hdupm]
  · exact ⟨"duplicate key value violates unique constraint \x22", "\x22",
      by simp [duplicateKeyMsg, String.append_assoc]⟩
  · intro digests
    simp [runCreateUnitTask, hdupd]

def mdDefaultsEx1 : ModulemdDefaultsValidatedData :=
  { module := "squid", stream := "4", profiles := "4: [common]"
    snippet := "document: modulemd-defaults" }

def mdEx1 : ModulemdValidatedData :=
  { name := "foo", stream := "foo", version := "foo", static_context := none
    context := "foo", arch := "foo", artifacts := "[]", dependencies := "[]"
    packages := [3], profiles := "[]", description := "foo", snippet := "foobar" }

theorem duplicate_identity_task_fails_witness :
    ((ModulemdDefaultsSerializer_create (fun s => s) mdDefaultsEx1).digest ∈
        ["document: modulemd-defaults", "foobar"]) ∧
    runCreateUnitTask "uniq_digest" ["document: modulemd-defaults", "foobar"]
        (ModulemdDefaultsSerializer_create (fun s => s) mdDefaultsEx1).digest =
      TaskFinalState.failed (duplicateKeyMsg "uniq_digest") :=
  ⟨by simp [ModulemdDefaultsSerializer_create, mdDefaultsEx1],
    (duplicate_identity_task_fails (fun s => s) "uniq_digest"
        ["document: modulemd-defaults", "foobar"] mdDefaultsEx1 mdEx1
        (by simp [ModulemdDefaultsSerializer_create, mdDefaultsEx1])
        (by simp [ModulemdSerializer_create, mdEx1])).1⟩

/-- C10: the digest of a created modulemd or modulemd-defaults unit is the
hash of the snippet field alone, so two creation requests with identical
snippets receive identical digests whatever their other fields are, and the
second creation is treated as a duplicate of the first: after the first
completes, the second terminates as a conflict failure. -/
theorem digest_depends_only_on_snippet
    (sha256_hexdigest : String → String) (constraint : String) (existing : List String)
    (vd1 vd2 : ModulemdDefaultsValidatedData) (md1 md2 : ModulemdValidatedData)
    (hsnip : vd1.snippet = vd2.snippet) (hmd : md1.snippet = md2.snippet)
    (hfresh : sha256_hexdigest vd1.snippet ∉ existing) :
    (ModulemdDefaultsSerializer_create sha256_hexdigest vd1).digest =
      (ModulemdDefaultsSerializer_create sha256_hexdigest vd2).digest ∧
    (ModulemdSerializer_create sha256_hexdigest md1).digest =
      (ModulemdSerializer_create sha256_hexdigest md2).digest ∧
    ∃ digests,
      runCreateUnitTask constraint existing
          (ModulemdDefaultsSerializer_create sha256_hexdigest vd1).digest =
        TaskFinalState.completed digests ∧
      runCreateUnitTask constraint digests
          (ModulemdDefaultsSerializer_create sha256_hexdigest vd2).digest =
        TaskFinalState.failed (duplicateKeyMsg constraint) := by
  refine ⟨?_, ?_, ?_⟩
  · simp [ModulemdDefaultsSerializer_create, hsnip]
  · simp [ModulemdSerializer_create, hmd]
  · refine ⟨sha256_hexdigest vd1.snippet :: existing, ?_, ?_⟩
    · simp [runCreateUnitTask, ModulemdDefaultsSerializer_create, hfresh]
    · simp [runCreateUnitTask, ModulemdDefaultsSerializer_create, hsnip]

def mdDefaultsEx2 : ModulemdDefaultsValidatedData :=
  { module := "squid-mod2", stream := "9", profiles := "other"
    snippet := "document: modulemd-defaults" }

theorem digest_depends_only_on_snippet_witness :
    mdDefaultsEx1.snippet = mdDefaultsEx2.snippet ∧
    mdDefaultsEx1.module ≠ mdDefaultsEx2.module ∧
    (ModulemdDefaultsSerializer_create (fun s => s) mdDefaultsEx1).digest =
      (ModulemdDefaultsSerializer_create (fun s => s) mdDefaultsEx2).digest ∧
    ∃ digests,
      runCreateUnitTask "uniq_digest" []
          (ModulemdDefaultsSerializer_create (fun s => s) mdDefaultsEx1).digest =
        TaskFinalState.completed digests ∧
      runCreateUnitTask "uniq_digest" digests
          (ModulemdDefaultsSerializer_create (fun s => s) mdDefaultsEx2).digest =
        TaskFinalState.failed (duplicateKeyMsg "uniq_digest") := by
  have h := digest_depends_only_on_snippet (fun s => s) "uniq_digest" []
    mdDefaultsEx1 mdDefaultsEx2 mdEx1 mdEx1 rfl rfl (by simp)
  exact ⟨rfl, by simp [mdDefaultsEx1, mdDefaultsEx2], h.1, h.2.2⟩

/-! ### Checkpoint resolver

The checkpoint read path is implemented outside the provided sources (only its
functional tests, src/pulp_rpm/tests/functional/api/test_checkpoint.py, are in
the corpus); the definitions below are modelled from the specification.
Timestamp text is represented as the list of its ASCII codes. -/

/-- A calendar timestamp at second granularity, the precision of the fixed
checkpoint URL format YYYYMMDDTHHMMSSZ. -/
structure DateTimeUTC where
  year : Nat
  month : Nat
  day : Nat
  hour : Nat
  minute : Nat
  second : Nat
deriving DecidableEq

/-- Total order key: fields packed lexicographically. -/
def DateTimeUTC.key (t : DateTimeUTC) : Nat :=
  ((((t.year * 100 + t.month) * 100 + t.day) * 100 + t.hour) * 100 + t.minute) * 100 + t.second

def DateTimeUTC.Valid (t : DateTimeUTC) : Prop :=
  t.year < 10000 ∧ 1 ≤ t.month ∧ t.month ≤ 12 ∧ 1 ≤ t.day ∧ t.day ≤ 31 ∧
    t.hour < 24 ∧ t.minute < 60 ∧ t.second < 60

instance (t : DateTimeUTC) : Decidable t.Valid := by
  unfold DateTimeUTC.Valid; infer_instance

def pad2 (n : Nat) : List Nat := [48 + n / 10 % 10, 48 + n % 10]

def pad4 (n : Nat) : List Nat :=
  [48 + n / 1000 % 10, 48 + n / 100 % 10, 48 + n / 10 % 10, 48 + n % 10]

/-- Modelled from the spec: strftime of a timestamp against the fixed format
YYYYMMDDTHHMMSSZ (84 is the code of T, 90 of Z). -/
def formatTimestamp (t : DateTimeUTC) : List Nat :=
  pad4 t.year ++ pad2 t.month ++ pad2 t.day ++ [84] ++
    pad2 t.hour ++ pad2 t.minute ++ pad2 t.second ++ [90]

def DigitCode (c : Nat) : Prop := 48 ≤ c ∧ c ≤ 57

instance (c : Nat) : Decidable (DigitCode c) := by
  unfold DigitCode; infer_instance

def validatedTimestamp (t : DateTimeUTC) : Option DateTimeUTC :=
  if t.Valid then some t else none

/-- Modelled from the spec: parsing of requested timestamp text against the
fixed format YYYYMMDDTHHMMSSZ; any text of the wrong shape, with non-digit
characters, or with out-of-range fields fails to parse. -/
def parseTimestamp (cs : List Nat) : Option DateTimeUTC :=
  match cs with
  | [y1, y2, y3, y4, m1, m2, d1, d2, tsep, h1, h2, n1, n2, s1, s2, zsep] =>
    if tsep = 84 ∧ zsep = 90 ∧
        DigitCode y1 ∧ DigitCode y2 ∧ DigitCode y3 ∧ DigitCode y4 ∧
        DigitCode m1 ∧ DigitCode m2 ∧ DigitCode d1 ∧ DigitCode d2 ∧
        DigitCode h1 ∧ DigitCode h2 ∧ DigitCode n1 ∧ DigitCode n2 ∧
        DigitCode s1 ∧ DigitCode s2 then
      validatedTimestamp
        { year := (((y1 - 48) * 10 + (y2 - 48)) * 10 + (y3 - 48)) * 10 + (y4 - 48)
          month := (m1 - 48) * 10 + (m2 - 48)
          day := (d1 - 48) * 10 + (d2 - 48)
          hour := (h1 - 48) * 10 + (h2 - 48)
          minute := (n1 - 48) * 10 + (n2 - 48)
          second := (s1 - 48) * 10 + (s2 - 48) }
    else none
  | _ => none

theorem parse_format_roundtrip (t : DateTimeUTC) (h : t.Valid) :
    parseTimestamp (formatTimestamp t) = some t := by
  obtain ⟨hy, hm1, hm2, hd1, hd2, hh, hn, hs⟩ := h
  cases t with
  | mk year month day hour minute second =>
  simp only [DateTimeUTC.Valid] at hy hm1 hm2 hd1 hd2 hh hn hs
  simp only [formatTimestamp, pad4, pad2, List.cons_append, List.nil_append, parseTimestamp,
    validatedTimestamp]
  rw [if_pos]
  · rw [if_pos]
    · simp only [Option.some.injEq, DateTimeUTC.mk.injEq]
      refine ⟨?_, ?_, ?_, ?_, ?_, ?_⟩ <;> omega
    · simp only [DateTimeUTC.Valid]
      refine ⟨?_, ?_, ?_, ?_, ?_, ?_, ?_, ?_⟩ <;> omega
  · refine ⟨trivial, trivial, ?_, ?_, ?_, ?_, ?_, ?_, ?_, ?_, ?_, ?_, ?_, ?_, ?_, ?_⟩ <;>
      exact ⟨by omega, by omega⟩

theorem formatTimestamp_injective {a b : DateTimeUTC} (ha : a.Valid) (hb : b.Valid)
    (h : formatTimestamp a = formatTimestamp b) : a = b := by
  have h1 := parse_format_roundtrip a ha
  have h2 := parse_format_roundtrip b hb
  rw [h, h2] at h1
  exact (Option.some.injEq _ _).mp h1.symm

/-- A publication as seen by the checkpoint read path: its immutable creation
timestamp and its checkpoint flag. -/
structure Publication where
  created_at : DateTimeUTC
  checkpoint : Bool
deriving DecidableEq

/-- Modelled from the spec: the distribution's checkpoint sequence — the
publications flagged checkpoint=true, in creation order. -/
def checkpointSequence (pubs : List Publication) : List Publication :=
  pubs.filter (fun p => p.checkpoint)

/-- Modelled from the spec: the binary search for the latest entry whose
created_at is at or before the requested timestamp; on a creation-ordered
sequence this is the last (rightmost) satisfying entry. -/
def latestAtOrBefore : List Publication → DateTimeUTC → Option Publication
  | [], _ => none
  | p :: rest, t =>
    match latestAtOrBefore rest t with
    | some q => some q
    | none => if p.created_at.key ≤ t.key then some p else none

inductive CheckpointResponse
  | listing (timestamps : List (List Nat))
  | index (pub : Publication)
  | redirect (canonical : List Nat) (pub : Publication)
  | notFound
deriving DecidableEq

/-- Modelled from the spec: resolve(distribution, requested_timestamp_text,
now).  Parse failure and future timestamps give NotFound; an exact match on
the latest checkpoint at or before the timestamp serves its content index
directly; a non-exact match redirects to the canonical URL built from the
matched entry's own created_at. -/
def resolveCheckpoint (pubs : List Publication) (now : DateTimeUTC) (text : List Nat) :
    CheckpointResponse :=
  match parseTimestamp text with
  | none => CheckpointResponse.notFound
  | some t =>
    if now.key < t.key then CheckpointResponse.notFound
    else
      match latestAtOrBefore (checkpointSequence pubs) t with
      | none => CheckpointResponse.notFound
      | some p =>
        if p.created_at = t then CheckpointResponse.index p
        else CheckpointResponse.redirect (formatTimestamp p.created_at) p

/-- Modelled from the spec: the request handler for paths below the
distribution's base path.  A trailing slash (code 47) is stripped, so the
slash-less form of any request is treated identically; the empty remainder
lists the checkpoint-flagged publications' formatted timestamps; any other
remainder is resolved as a timestamp. -/
def handleCheckpointRequest (pubs : List Publication) (now : DateTimeUTC) (path : List Nat) :
    CheckpointResponse :=
  let stripped := if path.getLast? = some 47 then path.dropLast else path
  if stripped = [] then
    CheckpointResponse.listing
      ((checkpointSequence pubs).map (fun p => formatTimestamp p.created_at))
  else
    resolveCheckpoint pubs now stripped

/-- The publication a response serves, directly or after canonicalization. -/
def resolvedPublication : CheckpointResponse → Option Publication
  | CheckpointResponse.index p => some p
  | CheckpointResponse.redirect _ p => some p
  | _ => none

theorem latestAtOrBefore_eq_none {l : List Publication} {t : DateTimeUTC}
    (h : ∀ p ∈ l, t.key < p.created_at.key) : latestAtOrBefore l t = none := by
  induction l with
  | nil => rfl
  | cons p rest ih =>
    have hrest := ih (fun q hq => h q (List.mem_cons_of_mem p hq))
    have hp := h p (List.mem_cons_self p rest)
    simp only [latestAtOrBefore, hrest]
    rw [if_neg (by omega)]

theorem latestAtOrBefore_self {l : List Publication} {p : Publication}
    (hsorted : l.Pairwise (fun a b => a.created_at.key < b.created_at.key))
    (hp : p ∈ l) : latestAtOrBefore l p.created_at = some p := by
  induction l with
  | nil => exact absurd hp (List.not_mem_nil p)
  | cons a rest ih =>
    obtain ⟨ha, hrest⟩ := List.pairwise_cons.mp hsorted
    rcases List.mem_cons.mp hp with heq | hmem
    · subst heq
      have hnone : latestAtOrBefore rest p.created_at = none :=
        latestAtOrBefore_eq_none (fun q hq => ha q hq)
      simp only [latestAtOrBefore, hnone]
      rw [if_pos (Nat.le_refl _)]
    · have hsome := ih hrest hmem
      simp only [latestAtOrBefore, hsome]

theorem pairwise_key_ne {l : List Publication}
    (hsorted : l.Pairwise (fun a b => a.created_at.key < b.created_at.key))
    {p q : Publication} (hp : p ∈ l) (hq : q ∈ l) (hne : p ≠ q) :
    p.created_at.key ≠ q.created_at.key := by
  induction l with
  | nil => exact absurd hp (List.not_mem_nil p)
  | cons a rest ih =>
    obtain ⟨ha, hrest⟩ := List.pairwise_cons.mp hsorted
    rcases List.mem_cons.mp hp with rfl | hp2
    · rcases List.mem_cons.mp hq with rfl | hq2
      · exact absurd rfl hne
      · exact Nat.ne_of_lt (ha q hq2)
    · rcases List.mem_cons.mp hq with rfl | hq2
      · exact (Nat.ne_of_lt (ha p hp2)).symm
      · exact ih hrest hp2 hq2

/-- C1: for a checkpoint-enabled distribution whose checkpoint publications
were created at T1 < T2 and which has a non-checkpoint publication at T3 with
T2 < T3 (so the current time is at least T3), resolving any valid timestamp t
with T2 ≤ t < T3 returns the T2 checkpoint publication (served directly or as
the canonical target), resolving any t strictly before T1 returns NotFound,
and resolving any t strictly after now returns NotFound. -/
theorem checkpoint_resolution_window
    (pubs : List Publication) (T1 T2 T3 now : DateTimeUTC)
    (hseq : checkpointSequence pubs = [⟨T1, true⟩, ⟨T2, true⟩])
    (hmem : (⟨T3, false⟩ : Publication) ∈ pubs)
    (h12 : T1.key < T2.key) (h23 : T2.key < T3.key) (hnow : T3.key ≤ now.key) :
    (∀ t : DateTimeUTC, t.Valid → T2.key ≤ t.key → t.key < T3.key →
        resolvedPublication (resolveCheckpoint pubs now (formatTimestamp t)) =
          some ⟨T2, true⟩) ∧
    (∀ t : DateTimeUTC, t.Valid → t.key < T1.key →
        resolveCheckpoint pubs now (formatTimestamp t) = CheckpointResponse.notFound) ∧
    (∀ t : DateTimeUTC, t.Valid → now.key < t.key →
        resolveCheckpoint pubs now (formatTimestamp t) = CheckpointResponse.notFound) := by
  refine ⟨?_, ?_, ?_⟩
  · intro t ht h2t ht3
    have hlatest : latestAtOrBefore (checkpointSequence pubs) t = some ⟨T2, true⟩ := by
      rw [hseq]
      simp only [latestAtOrBefore]
      rw [if_pos h2t]
    simp only [resolveCheckpoint, parse_format_roundtrip t ht]
    rw [if_neg (by omega)]
    simp only [hlatest]
    split <;> rfl
  · intro t ht ht1
    have hlatest : latestAtOrBefore (checkpointSequence pubs) t = none := by
      rw [hseq]
      refine latestAtOrBefore_eq_none ?_
      intro q hq
      rcases List.mem_cons.mp hq with rfl | hq2
      · exact ht1
      · rcases List.mem_cons.mp hq2 with rfl | hq3
        · exact Nat.lt_trans ht1 h12
        · exact absurd hq3 (List.not_mem_nil _)
    simp only [resolveCheckpoint, parse_format_roundtrip t ht]
    split
    · rfl
    · simp only [hlatest]
  · intro t ht htnow
    simp only [resolveCheckpoint, parse_format_roundtrip t ht]
    rw [if_pos htnow]

def dtEx (s : Nat) : DateTimeUTC :=
  { year := 2025, month := 10, day := 12, hour := 9, minute := 30, second := s }

def pubsEx : List Publication :=
  [⟨dtEx 0, false⟩, ⟨dtEx 1, true⟩, ⟨dtEx 2, false⟩, ⟨dtEx 3, true⟩, ⟨dtEx 4, false⟩]

def nowEx : DateTimeUTC := dtEx 10

theorem checkpoint_resolution_window_witness :
    checkpointSequence pubsEx = [⟨dtEx 1, true⟩, ⟨dtEx 3, true⟩] ∧
    resolvedPublication (resolveCheckpoint pubsEx nowEx (formatTimestamp (dtEx 3))) =
      some ⟨dtEx 3, true⟩ ∧
    resolveCheckpoint pubsEx nowEx (formatTimestamp (dtEx 0)) = CheckpointResponse.notFound ∧
    resolveCheckpoint pubsEx nowEx (formatTimestamp (dtEx 11)) = CheckpointResponse.notFound := by
  have h := checkpoint_resolution_window pubsEx (dtEx 1) (dtEx 3) (dtEx 4) nowEx
    (by decide) (by decide) (by decide) (by decide) (by decide)
  exact ⟨by decide, h.1 (dtEx 3) (by decide) (by decide) (by decide),
    h.2.1 (dtEx 0) (by decide) (by decide),
    h.2.2 (dtEx 11) (by decide) (by decide)⟩

/-- C7: resolving exactly the formatted created_at timestamp of a checkpoint
publication serves that checkpoint's content index directly (the index
response, not a redirect to another canonical URL). -/
theorem exact_checkpoint_timestamp_served
    (pubs : List Publication) (p : Publication) (now : DateTimeUTC)
    (hmem : p ∈ pubs) (hcp : p.checkpoint = true)
    (hsorted : pubs.Pairwise (fun a b => a.created_at.key < b.created_at.key))
    (hvalid : p.created_at.Valid) (hnow : p.created_at.key ≤ now.key) :
    resolveCheckpoint pubs now (formatTimestamp p.created_at) =
      CheckpointResponse.index p := by
  have hfilter : p ∈ checkpointSequence pubs :=
    List.mem_filter.mpr ⟨hmem, by simpa using hcp⟩
  have hsorted2 : (checkpointSequence pubs).Pairwise
      (fun a b => a.created_at.key < b.created_at.key) :=
    hsorted.filter _
  have hlatest := latestAtOrBefore_self hsorted2 hfilter
  simp only [resolveCheckpoint, parse_format_roundtrip p.created_at hvalid]
  rw [if_neg (by omega)]
  simp [hlatest]

theorem exact_checkpoint_timestamp_served_witness :
    ((⟨dtEx 3, true⟩ : Publication) ∈ pubsEx) ∧
    resolveCheckpoint pubsEx nowEx (formatTimestamp (dtEx 3)) =
      CheckpointResponse.index ⟨dtEx 3, true⟩ :=
  ⟨by decide,
    exact_checkpoint_timestamp_served pubsEx ⟨dtEx 3, true⟩ nowEx (by decide) rfl
      (by decide) (by decide) (by decide)⟩

/-- C4: a GET of a checkpoint distribution's base path, with or without a
trailing slash, lists exactly the formatted timestamps of the
checkpoint-flagged publications — every checkpoint publication's timestamp
(newest and oldest included) appears, and no non-checkpoint publication's
timestamp ever does. -/
theorem base_path_lists_exactly_checkpoints
    (pubs : List Publication) (now : DateTimeUTC)
    (hsorted : pubs.Pairwise (fun a b => a.created_at.key < b.created_at.key))
    (hvalid : ∀ p ∈ pubs, p.created_at.Valid) :
    handleCheckpointRequest pubs now [] = handleCheckpointRequest pubs now [47] ∧
    handleCheckpointRequest pubs now [] =
      CheckpointResponse.listing
        ((checkpointSequence pubs).map (fun q => formatTimestamp q.created_at)) ∧
    (∀ p ∈ pubs, p.checkpoint = true →
        formatTimestamp p.created_at ∈
          (checkpointSequence pubs).map (fun q => formatTimestamp q.created_at)) ∧
    (∀ p ∈ pubs, p.checkpoint = false →
        formatTimestamp p.created_at ∉
          (checkpointSequence pubs).map (fun q => formatTimestamp q.created_at)) := by
  refine ⟨rfl, rfl, ?_, ?_⟩
  · intro p hp hcp
    exact List.mem_map.mpr ⟨p, List.mem_filter.mpr ⟨hp, by simpa using hcp⟩, rfl⟩
  · intro p hp hcp hmem
    obtain ⟨q, hq, heq⟩ := List.mem_map.mp hmem
    obtain ⟨hq2, hqcp⟩ := List.mem_filter.mp hq
    have hinj : q.created_at = p.created_at :=
      formatTimestamp_injective (hvalid q hq2) (hvalid p hp) heq
    have hne : q ≠ p := by
      intro h
      subst h
      simp [hcp] at hqcp
    exact pairwise_key_ne hsorted hq2 hp hne (by rw [hinj])

theorem base_path_lists_exactly_checkpoints_witness :
    handleCheckpointRequest pubsEx nowEx [] = handleCheckpointRequest pubsEx nowEx [47] ∧
    formatTimestamp (dtEx 3) ∈
      (checkpointSequence pubsEx).map (fun q => formatTimestamp q.created_at) ∧
    formatTimestamp (dtEx 0) ∉
      (checkpointSequence pubsEx).map (fun q => formatTimestamp q.created_at) := by
  have h := base_path_lists_exactly_checkpoints pubsEx nowEx (by decide) (by decide)
  exact ⟨h.1, h.2.2.1 ⟨dtEx 3, true⟩ (by decide) rfl, h.2.2.2 ⟨dtEx 0, false⟩ (by decide) rfl⟩

end PulpRpm
